import Mathlib

/-!
Shallow embedding of the statistical aggregation / ranking / pivot logic of the
repository's three analysis scripts:

* `src/evaluation_results/visualization_script.py`
* `src/evaluation_results/scalability_visualization.py`
* `src/evaluation_results/access_pattern_visualization.py`

Numeric cells are modelled as exact rationals (`ℚ`); a pandas `NaN` (missing or
uncoercible value) is modelled as `Option.none`.  pandas reductions used by the
scripts skip `NaN` values (`skipna=True` is the default for `mean`, `min`,
`max`, `std`, `idxmin`), which the embedding mirrors by reducing only the
`some` values of a column.
-/

namespace VizSpec

/-- A cell of a raw tabular source before numeric coercion, as produced by
`pd.read_csv`: absent (`NaN`), a non-numeric string, or a numeric value.
`pd.to_numeric(_, errors=coerce)` sends the first two to `NaN` and keeps the
third, which `toNumericCell` mirrors. -/
inductive Cell
  | missing
  | text (s : String)
  | num (q : ℚ)
deriving DecidableEq, Repr

/-- `pd.to_numeric(cell, errors=coerce)`: numeric cells survive, everything
else becomes `NaN` (`missing`). -/
def toNumericCell : Cell → Cell
  | Cell.num q => Cell.num q
  | _ => Cell.missing

/-- View of a cell as an optional rational (`NaN` ↦ `none`). -/
def cellNum : Cell → Option ℚ
  | Cell.num q => some q
  | _ => none

/-- One row of a raw tabular source: an association list from column name to
cell, as read by `pd.read_csv`. -/
abbrev SRow := List (String × Cell)

/-- Column access `row[c]` on a raw row; a column absent from the row reads as
`NaN`.  (Schema-level absence of a whole column is modelled separately via
`SDF.cols`, see `coerceMetrics`.) -/
def getCell (r : SRow) (c : String) : Cell :=
  ((r.find? (fun p => p.1 = c)).map Prod.snd).getD Cell.missing

/-- A raw data frame: the header (column names) plus the rows. -/
structure SDF where
  cols : List String
  rows : List SRow
deriving DecidableEq

/-- `pandas.Series.idxmin` (with the default `skipna=True`) over a list of
rows, `val` giving the numeric value of a row: returns the row holding the
minimal valid value, the earliest such row on ties (idxmin returns the first
index attaining the minimum); `none` when no row has a valid value (the
all-`NaN` case, in which the scripts' pandas version returns `nan`). -/
def idxmin {α : Type} (val : α → Option ℚ) : List α → Option α
  | [] => none
  | r :: rs =>
    match val r with
    | none => idxmin val rs
    | some t =>
      match idxmin val rs with
      | none => some r
      | some b =>
        match val b with
        | none => some r
        | some tb => if t ≤ tb then some r else some b

/-- pandas `mean` over the valid values of a column: `NaN` on an empty list. -/
def aggMean (xs : List ℚ) : Option ℚ :=
  if xs = [] then none else some (xs.sum / xs.length)

/-- pandas `min` over the valid values of a column: `NaN` on an empty list. -/
def aggMin (xs : List ℚ) : Option ℚ :=
  xs.foldl (fun acc x => some (match acc with | none => x | some m => min m x)) none

/-- pandas `max` over the valid values of a column: `NaN` on an empty list. -/
def aggMax (xs : List ℚ) : Option ℚ :=
  xs.foldl (fun acc x => some (match acc with | none => x | some m => max m x)) none

/-- The sample variance used by pandas `std` (`ddof=1`): the squared deviations
from the mean divided by `N - 1`; `NaN` (`none`) when fewer than two valid
observations exist, exactly as pandas reports `NaN` for `std` of a single
value. -/
def sampleVar (xs : List ℚ) : Option ℚ :=
  if 2 ≤ xs.length then
    some (((xs.map (fun x => (x - xs.sum / (xs.length : ℚ)) ^ 2)).sum) /
      ((xs.length : ℚ) - 1))
  else none

/-- pandas `std` (`ddof=1`): the square root of `sampleVar`; `NaN` (`none`)
for fewer than two valid observations. -/
noncomputable def aggStd (xs : List ℚ) : Option ℝ :=
  match sampleVar xs with
  | none => none
  | some v => some (Real.sqrt ((v : ℚ) : ℝ))

/-- Insertion step of a generic insertion sort by a boolean order `le`. -/
def insertLe {α : Type} (le : α → α → Bool) (x : α) : List α → List α
  | [] => [x]
  | y :: ys => if le x y then x :: y :: ys else y :: insertLe le x ys

/-- Generic insertion sort by a boolean order `le`; models Python's
`sorted(...)` over unique key values. -/
def sortBy {α : Type} (le : α → α → Bool) (l : List α) : List α :=
  l.foldr (insertLe le) []

/-- Lexicographic strict order on character lists by code point — the order
Python's `<` uses on strings. -/
def strLtList : List Char → List Char → Bool
  | [], [] => false
  | [], _ :: _ => true
  | _ :: _, [] => false
  | a :: as, b :: bs =>
    if a.toNat < b.toNat then true
    else if b.toNat < a.toNat then false
    else strLtList as bs

/-- Python's lexicographic `<` on strings. -/
def strLt (a b : String) : Bool := strLtList a.data b.data

/-- String order used by Python's `sorted` over string keys. -/
def strLe (a b : String) : Bool := !(strLt b a)

/-- Order on cells used by `sorted(df[col].unique())`: numeric cells by value.
A source mixing numeric and non-numeric key cells would crash Python's
`sorted`; the relative order of non-numeric cells here is immaterial to the
claims, it only fixes a deterministic processing order. -/
def cellLe : Cell → Cell → Bool
  | Cell.num a, Cell.num b => decide (a ≤ b)
  | Cell.num _, _ => true
  | Cell.text a, Cell.text b => strLe a b
  | Cell.text _, Cell.num _ => false
  | Cell.text _, Cell.missing => true
  | Cell.missing, Cell.missing => true
  | Cell.missing, _ => false

/-! ## `access_pattern_visualization.py` — `calculate_summary`

`df.groupby(Implementation_DataType)[Average_Time_ms].agg([mean, min, max, std])`:
one aggregate row per key value observed in the input. -/

/-- One row of an access-pattern metrics file: the composite
`Implementation_DataType` grouping key and the `Average_Time_ms` measurement
(`none` models a `NaN` cell). -/
structure ARow where
  key : String
  time : Option ℚ
deriving DecidableEq, Repr

/-- The valid (non-`NaN`) `Average_Time_ms` observations of one group. -/
def groupVals (rs : List ARow) (k : String) : List ℚ :=
  rs.filterMap (fun r => if r.key = k then r.time else none)

/-- The aggregate produced by `calculate_summary` for one group:
mean/min/max/std of `Average_Time_ms` over the group's valid observations. -/
structure Agg where
  mean : Option ℚ
  min : Option ℚ
  max : Option ℚ
  std : Option ℝ

/-- `calculate_summary` of `access_pattern_visualization.py`, viewed as the
mapping from a grouping-key value to its aggregate row: `groupby` produces a
row exactly for the key values observed in the input, reducing the valid
`Average_Time_ms` values of each group with pandas `mean`, `min`, `max`,
`std`. -/
noncomputable def calculate_summary (rs : List ARow) (k : String) : Option Agg :=
  if k ∈ rs.map ARow.key then
    some { mean := aggMean (groupVals rs k), min := aggMin (groupVals rs k),
           max := aggMax (groupVals rs k), std := aggStd (groupVals rs k) }
  else none

/-! ## `visualization_script.py` — ingestion, pivoting, best-per-metric -/

/-- One row of `summary_statistics.csv` as consumed by `analyze_csv`:
the columns the analysis reads.  `Metric` and `Average_Time_ms` are optional
because a CSV cell may be `NaN`. -/
structure VRow where
  Category : String
  Best_Implementation : String
  Metric : Option String
  Average_Time_ms : Option ℚ
deriving DecidableEq, Repr

/-- Line 17: `operations_data = df[df[Category] == Operation]`. -/
def operationsData (df : List VRow) : List VRow :=
  df.filter (fun r => r.Category = "Operation")

/-- Line 18: `memory_data = df[df[Category] == Memory]`. -/
def memoryData (df : List VRow) : List VRow :=
  df.filter (fun r => r.Category = "Memory")

/-- Leftmost non-overlapping split on the two-character delimiter `__`,
the semantics of Python's `str.split` with that separator: `acc` holds the
(reversed) characters of the part being built. -/
def splitBIAux : List Char → List Char → List String
  | [], acc => [String.mk acc.reverse]
  | [c], acc => [String.mk ((c :: acc).reverse)]
  | c1 :: c2 :: rest, acc =>
    if c1 = '_' ∧ c2 = '_' then String.mk acc.reverse :: splitBIAux rest []
    else splitBIAux (c2 :: rest) (c1 :: acc)

/-- `str.split` on the literal `__` delimiter of the composite
`Best_Implementation` column. -/
def splitBI (s : String) : List String := splitBIAux s.data []

/-- Number of columns produced by `str.split(.., expand=True)` over a column:
the maximum part count over all rows (0 for an empty frame). -/
def expandWidth (rows : List VRow) : Nat :=
  rows.foldl (fun w r => max w (splitBI r.Best_Implementation).length) 0

/-- A row after the split-assignment
`data[[Implementation, DataType]] = data[Best_Implementation].str.split(..)`:
the two new columns (optional: a 1-part row leaves `DataType` as `None`)
next to the carried-over columns. -/
structure OpRecO where
  Implementation : Option String
  DataType : Option String
  Metric : Option String
  time : Option ℚ
deriving DecidableEq, Repr

/-- The split-assignment applied to one row, assuming expansion width 2:
a 2-part composite fills both new columns, a 1-part composite leaves
`DataType` as `None` (pandas pads missing parts with `None`).  Wider rows
cannot occur under width 2 (`splitOn` yields at least one part). -/
def splitRow (r : VRow) : OpRecO :=
  match splitBI r.Best_Implementation with
  | [a, b] => { Implementation := some a, DataType := some b,
                Metric := r.Metric, time := r.Average_Time_ms }
  | [a] => { Implementation := some a, DataType := none,
             Metric := r.Metric, time := r.Average_Time_ms }
  | _ => { Implementation := none, DataType := none,
           Metric := r.Metric, time := r.Average_Time_ms }

/-- Lines 21–22: assigning the expanded split back into exactly two columns.
pandas raises `ValueError: Columns must be same length as key` whenever the
expanded frame does not have exactly 2 columns (all rows 1-part, or some row
3-or-more-part); otherwise every row is mapped by `splitRow`. -/
def splitAssign (rows : List VRow) : Except String (List OpRecO) :=
  if expandWidth rows = 2 then Except.ok (rows.map splitRow)
  else Except.error "ValueError: Columns must be same length as key"

/-- A fully valid operations record, as remains after line 25's `dropna` over
`Implementation`, `DataType`, `Metric`, `Average_Time_ms`. -/
structure OpRec where
  Implementation : String
  DataType : String
  Metric : String
  time : Option ℚ
deriving DecidableEq, Repr

/-- The `dropna` test applied to one split row: kept (as an `OpRec`) iff all
four required columns are non-`NaN`. -/
def dropnaOne (o : OpRecO) : Option OpRec :=
  match o.Implementation, o.DataType, o.Metric, o.time with
  | some i, some d, some m, some t => some ⟨i, d, m, some t⟩
  | _, _, _, _ => none

/-- Line 25: `operations_data.dropna(subset=[Implementation, DataType,
Metric, Average_Time_ms])`. -/
def dropnaOps (l : List OpRecO) : List OpRec := l.filterMap dropnaOne

/-- Line 26's `dropna` for the memory frame only requires `Implementation`,
`DataType` and `Average_Time_ms` (not `Metric`). -/
def dropnaMems (l : List OpRecO) : List OpRecO :=
  l.filter (fun o => o.Implementation.isSome && o.DataType.isSome && o.time.isSome)

/-- The valid `Average_Time_ms` observations of one `(Implementation, Metric)`
pivot cell. -/
def pivotVals (rs : List OpRec) (i m : String) : List ℚ :=
  rs.filterMap (fun r => if r.Implementation = i ∧ r.Metric = m then r.time else none)

/-- One cell of
`pivot_table(values=Average_Time_ms, index=Implementation, columns=Metric,
aggfunc=mean)` before `fillna`: the mean of the cell's observations, `NaN`
(`none`, pandas' missing marker) for a (row,column) pair with none. -/
def pivotMean (rs : List OpRec) (i m : String) : Option ℚ :=
  aggMean (pivotVals rs i m)

/-- Lines 64–69 (`create_operation_performance_plot`): the pivot table after
`.fillna(0)` — every absent (row,column) cell is replaced by the number 0. -/
def performance_data (rs : List OpRec) (i m : String) : ℚ :=
  (pivotMean rs i m).getD 0

/-- Sorted unique metric names, `sorted(op_data[Metric].unique())`. -/
def uniqueMetricsSorted (rs : List OpRec) : List String :=
  sortBy strLe ((rs.map OpRec.Metric).dedup)

/-- Line 133: `subset[Average_Time_ms].idxmin()` for the rows of one metric —
the best (minimal-time) candidate row, `none` in the all-`NaN` case. -/
def bestRowForMetric (rs : List OpRec) (m : String) : Option OpRec :=
  idxmin (fun r => r.time) (rs.filter (fun r => r.Metric = m))

/-- Lines 130–136 (`print_summary_statistics`): one best-implementation entry
per sorted unique metric; an empty subset is skipped by the `if not
subset.empty` guard and an all-`NaN` subset by the `if pd.notna(min_idx)`
guard, without aborting the loop. -/
def vizBestLines (rs : List OpRec) : List (String × OpRec) :=
  (uniqueMetricsSorted rs).filterMap (fun m =>
    if (rs.filter (fun r => r.Metric = m)).isEmpty then none
    else (bestRowForMetric rs m).map (fun b => (m, b)))

/-! ## `scalability_visualization.py` — `analyze_scalability` -/

/-- Line 21–25: the declared numeric metric columns converted by the
`pd.to_numeric` loop. -/
def metricsList : List String :=
  ["TotalTime(ms)", "AvgTimePerOp(ms)", "MinLatency(ms)",
   "MaxLatency(ms)", "50thPercentile(ms)", "90thPercentile(ms)",
   "MemoryOverhead(MB)"]

/-- The declared columns `analyze_scalability` reads: the two dimension
columns plus the numeric metric columns. -/
def scalDeclaredCols : List String := "RowCount" :: "Implementation" :: metricsList

/-- The per-row effect of the coercion loop (lines 26–27): every cell of a
declared metric column goes through `to_numeric(errors=coerce)`, other cells
are untouched. -/
def coerceRow (r : SRow) : SRow :=
  r.map (fun p => if metricsList.contains p.1 then (p.1, toNumericCell p.2) else p)

/-- Lines 26–27: `for metric in metrics: df[metric] = pd.to_numeric(df[metric],
errors=coerce)`.  Reading `df[metric]` raises `KeyError` on the first declared
metric column absent from the source's header — fatal for that source; when
all are present every row's metric cells are coerced and no row is dropped. -/
def coerceMetrics (df : SDF) : Except String SDF :=
  match metricsList.find? (fun m => !(df.cols.contains m)) with
  | some m => Except.error ("KeyError: " ++ m)
  | none => Except.ok { cols := df.cols, rows := df.rows.map coerceRow }

/-- `sorted(df[RowCount].unique())` (line 110): the distinct `RowCount` cell
values in sorted order. -/
def rowCountKeys (rows : List SRow) : List Cell :=
  sortBy cellLe ((rows.map (fun r => getCell r "RowCount")).dedup)

/-- The numeric value of a row's cell in column `c` (post-coercion view). -/
def metricVal (r : SRow) (c : String) : Option ℚ := cellNum (getCell r c)

/-- The per-row-count selection loop of `print_summary_statistics`
(lines 118–124), processing keys in order: `subset.loc[idxmin]` — when
`idxmin` yields `nan` (no candidate row with a valid `AvgTimePerOp(ms)`),
`subset.loc[nan]` raises `KeyError`, aborting the loop; the lines already
emitted stay, later keys are never processed.  Returns the emitted
`(row-count, best row)` entries and the error, if one occurred. -/
def scalGo (rows : List SRow) : List Cell → List (Cell × SRow) × Option String
  | [] => ([], none)
  | rc :: rest =>
    match idxmin (fun r => metricVal r "AvgTimePerOp(ms)")
        (rows.filter (fun r => getCell r "RowCount" = rc)) with
    | none => ([], some "KeyError: nan")
    | some b =>
      let p := scalGo rows rest
      ((rc, b) :: p.1, p.2)

/-- The best-implementation-per-row-count batch of
`print_summary_statistics` in `scalability_visualization.py`. -/
def scalBestPerRowCount (rows : List SRow) : List (Cell × SRow) × Option String :=
  scalGo rows (rowCountKeys rows)

/-- `df.groupby(Implementation)[MemoryOverhead(MB)].mean()` (line 131):
the valid memory observations of one implementation group. -/
def memVals (rows : List SRow) (impl : String) : List ℚ :=
  rows.filterMap (fun r =>
    if getCell r "Implementation" = Cell.text impl then
      metricVal r "MemoryOverhead(MB)"
    else none)

/-- The per-implementation mean memory overhead of the memory-usage summary:
`NaN` (`none`) for a group with zero valid observations. -/
def memMean (rows : List SRow) (impl : String) : Option ℚ :=
  aggMean (memVals rows impl)

/-- The source handed to `analyze_scalability`: the CSV file may be entirely
absent, or present with a header and data rows. -/
inductive ScalSource
  | absent
  | present (df : SDF)

/-- Observable outcome of a completed `analyze_scalability` call. -/
inductive ScalOut
  | noData
  | done (res : List (Cell × SRow) × Option String)

/-- `analyze_scalability` (lines 10–38): `pd.read_csv` raises
`FileNotFoundError` on an absent file (caught only by `main`'s top-level
handler); a present empty frame hits the `df.empty` guard (lines 16–18) and
returns early; otherwise the metric columns are coerced (KeyError on a missing
declared metric column), the plot calls read the `RowCount` and
`Implementation` columns (KeyError when absent), and the
best-per-row-count summary runs. -/
def analyze_scalability_run : ScalSource → Except String ScalOut
  | ScalSource.absent => Except.error "FileNotFoundError"
  | ScalSource.present df =>
    if df.rows.isEmpty then Except.ok ScalOut.noData
    else
      match coerceMetrics df with
      | Except.error e => Except.error e
      | Except.ok df2 =>
        if df2.cols.contains "RowCount" && df2.cols.contains "Implementation" then
          Except.ok (ScalOut.done (scalBestPerRowCount df2.rows))
        else Except.error "KeyError: dimension column"

/-! ## Helper lemmas -/

theorem idxmin_mem_isSome {α : Type} (val : α → Option ℚ) :
    ∀ (l : List α) (b : α), idxmin val l = some b → b ∈ l ∧ (val b).isSome := by
  intro l
  induction l with
  | nil => intro b h; simp [idxmin] at h
  | cons a t ih =>
    intro b h
    cases hv : val a with
    | none =>
      simp only [idxmin, hv] at h
      rcases ih b h with ⟨hm, hs⟩
      exact ⟨List.mem_cons_of_mem a hm, hs⟩
    | some ta =>
      cases hr : idxmin val t with
      | none =>
        simp only [idxmin, hv, hr] at h
        cases h
        exact ⟨List.mem_cons_self a t, by simp [hv]⟩
      | some c =>
        cases hvc : val c with
        | none =>
          simp only [idxmin, hv, hr, hvc] at h
          cases h
          exact ⟨List.mem_cons_self a t, by simp [hv]⟩
        | some tc =>
          simp only [idxmin, hv, hr, hvc] at h
          by_cases hle : ta ≤ tc
          · rw [if_pos hle] at h
            cases h
            exact ⟨List.mem_cons_self a t, by simp [hv]⟩
          · rw [if_neg hle] at h
            cases h
            rcases ih b hr with ⟨hm, _⟩
            exact ⟨List.mem_cons_of_mem a hm, by simp [hvc]⟩

theorem idxmin_eq_none_iff {α : Type} (val : α → Option ℚ) :
    ∀ l : List α, idxmin val l = none ↔ ∀ r ∈ l, val r = none := by
  intro l
  induction l with
  | nil => simp [idxmin]
  | cons a t ih =>
    cases hv : val a with
    | none => simp [idxmin, hv, ih]
    | some ta =>
      constructor
      · intro h
        cases hr : idxmin val t with
        | none =>
          simp only [idxmin, hv, hr] at h
          exact Option.noConfusion h
        | some c =>
          cases hvc : val c with
          | none =>
            simp only [idxmin, hv, hr, hvc] at h
            exact Option.noConfusion h
          | some tc =>
            simp only [idxmin, hv, hr, hvc] at h
            by_cases hle : ta ≤ tc
            · rw [if_pos hle] at h; exact Option.noConfusion h
            · rw [if_neg hle] at h; exact Option.noConfusion h
      · intro h
        exact absurd (h a (List.mem_cons_self a t)) (by simp [hv])

/-- Full characterization of `idxmin`: the returned row carries the minimal
valid value and is the earliest row attaining it (every earlier row with a
valid value is strictly greater). -/
theorem idxmin_first_min {α : Type} (val : α → Option ℚ) :
    ∀ (l : List α) (b : α), idxmin val l = some b →
      ∃ t, val b = some t ∧
        (∀ r ∈ l, ∀ u, val r = some u → t ≤ u) ∧
        ∃ l1 l2, l = l1 ++ b :: l2 ∧ ∀ r ∈ l1, ∀ u, val r = some u → t < u := by
  intro l
  induction l with
  | nil => intro b h; simp [idxmin] at h
  | cons a t ih =>
    intro b h
    cases hv : val a with
    | none =>
      simp only [idxmin, hv] at h
      rcases ih b h with ⟨tb, hvb, hmin, l1, l2, hsplit, hpre⟩
      refine ⟨tb, hvb, ?_, a :: l1, l2, by rw [hsplit]; rfl, ?_⟩
      · intro r hr u hu
        rcases List.mem_cons.mp hr with rfl | hr2
        · rw [hv] at hu; cases hu
        · exact hmin r hr2 u hu
      · intro r hr u hu
        rcases List.mem_cons.mp hr with rfl | hr2
        · rw [hv] at hu; cases hu
        · exact hpre r hr2 u hu
    | some ta =>
      cases hr : idxmin val t with
      | none =>
        simp only [idxmin, hv, hr] at h
        cases h
        refine ⟨ta, hv, ?_, [], t, rfl, ?_⟩
        · intro r hrm u hu
          rcases List.mem_cons.mp hrm with rfl | hr2
          · rw [hv] at hu; cases hu; exact le_refl _
          · rw [(idxmin_eq_none_iff val t).mp hr r hr2] at hu; cases hu
        · intro r hrm u hu
          exact absurd hrm (List.not_mem_nil r)
      | some c =>
        rcases ih c hr with ⟨tc, hvc, hmin, l1, l2, hsplit, hpre⟩
        simp only [idxmin, hv, hr, hvc] at h
        by_cases hle : ta ≤ tc
        · rw [if_pos hle] at h
          cases h
          refine ⟨ta, hv, ?_, [], t, rfl, ?_⟩
          · intro r hrm u hu
            rcases List.mem_cons.mp hrm with rfl | hr2
            · rw [hv] at hu; cases hu; exact le_refl _
            · exact le_trans hle (hmin r hr2 u hu)
          · intro r hrm u hu
            exact absurd hrm (List.not_mem_nil r)
        · rw [if_neg hle] at h
          cases h
          have hlt : tc < ta := lt_of_not_le hle
          refine ⟨tc, hvc, ?_, a :: l1, l2, by rw [hsplit]; rfl, ?_⟩
          · intro r hrm u hu
            rcases List.mem_cons.mp hrm with rfl | hr2
            · rw [hv] at hu; cases hu; exact le_of_lt hlt
            · exact hmin r hr2 u hu
          · intro r hrm u hu
            rcases List.mem_cons.mp hrm with rfl | hr2
            · rw [hv] at hu; cases hu; exact hlt
            · exact hpre r hr2 u hu

theorem mem_insertLe {α : Type} (le : α → α → Bool) (x y : α) :
    ∀ l : List α, y ∈ insertLe le x l ↔ y = x ∨ y ∈ l := by
  intro l
  induction l with
  | nil => simp [insertLe]
  | cons a t ih =>
    cases h : le x a with
    | true => simp [insertLe, h]
    | false =>
      rw [show insertLe le x (a :: t) = a :: insertLe le x t from by simp [insertLe, h]]
      rw [List.mem_cons, List.mem_cons, ih]
      tauto

theorem mem_sortBy {α : Type} (le : α → α → Bool) (x : α) :
    ∀ l : List α, x ∈ sortBy le l ↔ x ∈ l := by
  intro l
  induction l with
  | nil => simp [sortBy]
  | cons a t ih =>
    show x ∈ insertLe le a (sortBy le t) ↔ _
    rw [mem_insertLe, List.mem_cons, ih]

theorem aggMean_perm {xs ys : List ℚ} (h : xs.Perm ys) : aggMean xs = aggMean ys := by
  unfold aggMean
  by_cases hx : xs = []
  · subst hx
    rw [← h.nil_eq]
  · have hy : ys ≠ [] := by
      intro he; subst he; exact hx h.eq_nil
    rw [if_neg hx, if_neg hy, h.sum_eq, h.length_eq]

theorem aggMin_perm {xs ys : List ℚ} (h : xs.Perm ys) : aggMin xs = aggMin ys := by
  haveI : RightCommutative
      (fun (acc : Option ℚ) (x : ℚ) =>
        some (match acc with | none => x | some m => min m x)) := by
    refine ⟨fun b a1 a2 => ?_⟩
    cases b with
    | none => simp [min_comm]
    | some m => simp [min_assoc, min_comm a1 a2]
  exact h.foldl_eq none

theorem aggMax_perm {xs ys : List ℚ} (h : xs.Perm ys) : aggMax xs = aggMax ys := by
  haveI : RightCommutative
      (fun (acc : Option ℚ) (x : ℚ) =>
        some (match acc with | none => x | some m => max m x)) := by
    refine ⟨fun b a1 a2 => ?_⟩
    cases b with
    | none => simp [max_comm]
    | some m => simp [max_assoc, max_comm a1 a2]
  exact h.foldl_eq none

theorem sampleVar_perm {xs ys : List ℚ} (h : xs.Perm ys) : sampleVar xs = sampleVar ys := by
  unfold sampleVar
  rw [h.length_eq, h.sum_eq,
    (h.map (fun x => (x - ys.sum / (ys.length : ℚ)) ^ 2)).sum_eq]

theorem aggStd_perm {xs ys : List ℚ} (h : xs.Perm ys) : aggStd xs = aggStd ys := by
  unfold aggStd
  rw [sampleVar_perm h]

theorem groupVals_perm {rs rs2 : List ARow} (h : rs.Perm rs2) (k : String) :
    (groupVals rs k).Perm (groupVals rs2 k) := by
  unfold groupVals
  exact h.filterMap _

theorem getCell_cons (k : String) (v : Cell) (t : SRow) (c : String) :
    getCell ((k, v) :: t) c = if k = c then v else getCell t c := by
  unfold getCell
  by_cases hk : k = c
  · rw [List.find?_cons_of_pos _ (by simp [hk]), if_pos hk]
    rfl
  · rw [List.find?_cons_of_neg _ (by simp [hk]), if_neg hk]

/-- `getCell` after the coercion loop: metric-column cells go through
`to_numeric`, all other cells are untouched. -/
theorem getCell_coerceRow (r : SRow) (c : String) :
    getCell (coerceRow r) c =
      if metricsList.contains c then toNumericCell (getCell r c) else getCell r c := by
  induction r with
  | nil =>
    cases hm : metricsList.contains c <;> simp [hm, coerceRow, getCell, toNumericCell]
  | cons p t ih =>
    obtain ⟨k, v⟩ := p
    have hcr : coerceRow ((k, v) :: t) =
        (if metricsList.contains k then (k, toNumericCell v) else (k, v)) :: coerceRow t := rfl
    rw [hcr]
    by_cases hm : metricsList.contains k <;> by_cases hk : k = c
    · subst hk
      rw [if_pos hm]
      simp only [getCell_cons, if_pos rfl]
      have hmem : k ∈ metricsList := by simpa using hm
      simp [hmem]
    · rw [if_pos hm]
      simp only [getCell_cons, if_neg hk]
      exact ih
    · subst hk
      rw [if_neg hm]
      simp only [getCell_cons, if_pos rfl]
      have hmem : ¬ k ∈ metricsList := by simpa using hm
      simp [hmem]
    · rw [if_neg hm]
      simp only [getCell_cons, if_neg hk]
      exact ih

/-! ## Concrete inputs used by the claim theorems -/

/-- The spec's pivot example: observations for (A,X), (A,Y), (B,X) but none
for (B,Y). -/
def pivotExample : List OpRec :=
  [{ Implementation := "A", DataType := "d", Metric := "X", time := some 10 },
   { Implementation := "A", DataType := "d", Metric := "Y", time := some 20 },
   { Implementation := "B", DataType := "d", Metric := "X", time := some 30 }]

/-- Two candidate rows for metric SELECT with exactly equal value 5, in the
row order foo before bar (bar is lexicographically smaller). -/
def tieExample : List OpRec :=
  [{ Implementation := "foo", DataType := "d", Metric := "SELECT", time := some 5 },
   { Implementation := "bar", DataType := "d", Metric := "SELECT", time := some 5 }]

/-- A single candidate row used to witness the first-occurrence-minimum
selection property. -/
def tieWitnessRow : OpRec :=
  { Implementation := "a", DataType := "d", Metric := "M", time := some 3 }

/-- A one-observation group for the standard-deviation witness. -/
def stdWitnessRows : List ARow := [{ key := "k", time := some 5 }]

/-- Two-row record set and its transposition, for the permutation witness. -/
def permRowsA : List ARow := [⟨"k", some 1⟩, ⟨"k", some 3⟩]

/-- Transposition of `permRowsA`. -/
def permRowsB : List ARow := [⟨"k", some 3⟩, ⟨"k", some 1⟩]

/-! ## Claim theorems -/

/-- C1: the claim says a (row,column) combination with zero observations is
marked missing and never assigned a default numeric value.  Evaluating the
embedded `create_operation_performance_plot` pivot on the spec's own example
shows the opposite: the (B,Y) cell, whose pre-`fillna` pivot value is the
missing marker (`none`), is assigned the number 0 by `.fillna(0)`, while the
three observed cells hold numeric values. -/
theorem C1_fillna_assigns_zero :
    performance_data pivotExample "B" "Y" = 0 ∧
    pivotMean pivotExample "B" "Y" = none ∧
    "B" ∈ pivotExample.map OpRec.Implementation ∧
    "Y" ∈ pivotExample.map OpRec.Metric ∧
    (pivotMean pivotExample "A" "X").isSome ∧
    (pivotMean pivotExample "A" "Y").isSome ∧
    (pivotMean pivotExample "B" "X").isSome := by
  decide

/-- C2 counterexample: on two candidates with exactly equal value, the
selection (`idxmin`) returns the row-order-first candidate foo although bar
is lexicographically smaller — the claimed lexicographic tie-break is false. -/
theorem C2_counterexample :
    (bestRowForMetric tieExample "SELECT").map OpRec.Implementation = some "foo" ∧
    tieExample.map OpRec.time = [some 5, some 5] ∧
    tieExample.map OpRec.Implementation = ["foo", "bar"] ∧
    strLt "bar" "foo" = true := by
  decide

/-- C2 (amended): the selected best candidate for a metric carries the
minimal valid value among the metric's candidates, and it is the earliest
row-order candidate attaining that minimum (every earlier candidate with a
valid value is strictly greater); being a pure function of its input, the
selection is identical across repeated runs on identical input. -/
theorem C2_first_occurrence_min (rs : List OpRec) (m : String) (b : OpRec)
    (h : bestRowForMetric rs m = some b) :
    ∃ t, b.time = some t ∧
      (∀ r ∈ rs.filter (fun r => r.Metric = m), ∀ u, r.time = some u → t ≤ u) ∧
      ∃ l1 l2, rs.filter (fun r => r.Metric = m) = l1 ++ b :: l2 ∧
        ∀ r ∈ l1, ∀ u, r.time = some u → t < u := by
  unfold bestRowForMetric at h
  exact idxmin_first_min (fun r => r.time) (rs.filter (fun r => r.Metric = m)) b h

/-- Witness for C2's amended theorem at a concrete input. -/
theorem C2_first_occurrence_min_witness :
    ∃ t, tieWitnessRow.time = some t ∧
      (∀ r ∈ [tieWitnessRow].filter (fun r => r.Metric = "M"), ∀ u,
        r.time = some u → t ≤ u) ∧
      ∃ l1 l2, [tieWitnessRow].filter (fun r => r.Metric = "M") = l1 ++ tieWitnessRow :: l2 ∧
        ∀ r ∈ l1, ∀ u, r.time = some u → t < u :=
  C2_first_occurrence_min [tieWitnessRow] "M" tieWitnessRow (by decide)

/-- C3: in every aggregate row produced by `calculate_summary`, a group with
exactly one valid observation reports an undefined (`NaN`-modelled-as-`none`)
standard deviation — in particular never 0 — and a group with more than one
valid observation reports the sample standard deviation with the `N − 1`
denominator. -/
theorem C3_single_count_std_undefined (rs : List ARow) (k : String) (a : Agg)
    (h : calculate_summary rs k = some a) :
    ((groupVals rs k).length = 1 → a.std = none ∧ a.std ≠ some 0) ∧
    (1 < (groupVals rs k).length →
      a.std = some (Real.sqrt
        (((((groupVals rs k).map
            (fun x => (x - (groupVals rs k).sum / ((groupVals rs k).length : ℚ)) ^ 2)).sum /
          (((groupVals rs k).length : ℚ) - 1) : ℚ) : ℝ)))) := by
  unfold calculate_summary at h
  by_cases hk : k ∈ rs.map ARow.key
  · rw [if_pos hk] at h
    cases h
    constructor
    · intro h1
      have hv : sampleVar (groupVals rs k) = none := by
        unfold sampleVar
        rw [if_neg (by omega)]
      constructor
      · show aggStd (groupVals rs k) = none
        unfold aggStd
        simp only [hv]
      · show aggStd (groupVals rs k) ≠ some 0
        unfold aggStd
        simp only [hv]
        exact fun hx => Option.noConfusion hx
    · intro h2
      have hv : sampleVar (groupVals rs k) =
          some (((groupVals rs k).map
              (fun x => (x - (groupVals rs k).sum / ((groupVals rs k).length : ℚ)) ^ 2)).sum /
            (((groupVals rs k).length : ℚ) - 1)) := by
        unfold sampleVar
        rw [if_pos (by omega)]
      show aggStd (groupVals rs k) = _
      unfold aggStd
      simp only [hv]
  · rw [if_neg hk] at h
    exact Option.noConfusion h

/-- Witness for C3 at a concrete one-observation group. -/
theorem C3_single_count_std_undefined_witness :
    ∃ a, calculate_summary stdWitnessRows "k" = some a ∧ (a.std = none ∧ a.std ≠ some 0) :=
  ⟨_, rfl, (C3_single_count_std_undefined stdWitnessRows "k" _ rfl).1 (by decide)⟩

/-- C4: the grouped aggregation of `calculate_summary` (mean, min, max,
standard deviation, and the group's valid-observation count) is invariant
under any permutation of the record set's rows. -/
theorem C4_aggregate_perm_invariant (rs rs2 : List ARow) (h : rs.Perm rs2) (k : String) :
    calculate_summary rs k = calculate_summary rs2 k ∧
    (groupVals rs k).length = (groupVals rs2 k).length := by
  have hg := groupVals_perm h k
  refine ⟨?_, hg.length_eq⟩
  unfold calculate_summary
  by_cases hk : k ∈ rs.map ARow.key
  · have hk2 : k ∈ rs2.map ARow.key := ((h.map ARow.key).mem_iff).mp hk
    rw [if_pos hk, if_pos hk2, aggMean_perm hg, aggMin_perm hg, aggMax_perm hg,
      aggStd_perm hg]
  · have hk2 : ¬ k ∈ rs2.map ARow.key := fun hx => hk (((h.map ARow.key).mem_iff).mpr hx)
    rw [if_neg hk, if_neg hk2]

/-- Witness for C4 at a concrete transposition. -/
theorem C4_aggregate_perm_invariant_witness :
    calculate_summary permRowsA "k" = calculate_summary permRowsB "k" ∧
    (groupVals permRowsA "k").length = (groupVals permRowsB "k").length :=
  C4_aggregate_perm_invariant permRowsA permRowsB (by decide) "k"

/-- A scalability row with a valid `AvgTimePerOp(ms)` observation. -/
def memRowY : SRow :=
  [("Implementation", Cell.text "y"), ("RowCount", Cell.num 100),
   ("AvgTimePerOp(ms)", Cell.num 5), ("MemoryOverhead(MB)", Cell.num 4)]

/-- A scalability row whose memory observation is invalid (`NaN`). -/
def memRowZ : SRow :=
  [("Implementation", Cell.text "z"), ("RowCount", Cell.num 100),
   ("AvgTimePerOp(ms)", Cell.num 7), ("MemoryOverhead(MB)", Cell.missing)]

/-- Rows giving implementation z zero valid memory observations. -/
def memExample : List SRow := [memRowY, memRowZ]

/-- C5: a per-implementation memory aggregate value exists only when the
group has at least one valid observation; a group with zero valid
observations yields the missing marker (`none`), not a numeric placeholder;
and the ranking selection (`idxmin` on `AvgTimePerOp(ms)`) only ever returns
a candidate row that belongs to the subset and has a valid value — a
candidate with zero valid observations is never selected. -/
theorem C5_no_aggregate_without_observations (rows : List SRow) (impl : String) :
    (∀ v, memMean rows impl = some v → 1 ≤ (memVals rows impl).length) ∧
    ((memVals rows impl).length = 0 → memMean rows impl = none) ∧
    (∀ sub : List SRow, ∀ b,
      idxmin (fun r => metricVal r "AvgTimePerOp(ms)") sub = some b →
      b ∈ sub ∧ (metricVal b "AvgTimePerOp(ms)").isSome) := by
  refine ⟨?_, ?_, ?_⟩
  · intro v hv
    unfold memMean aggMean at hv
    by_cases he : memVals rows impl = []
    · rw [if_pos he] at hv
      exact Option.noConfusion hv
    · have hp : 0 < (memVals rows impl).length := List.length_pos.mpr he
      omega
  · intro h0
    have he : memVals rows impl = [] := List.length_eq_zero.mp h0
    unfold memMean aggMean
    rw [if_pos he]
  · intro sub b h
    exact idxmin_mem_isSome _ sub b h

/-- Witness for C5 at a concrete input: implementation z has zero valid
memory observations and gets no aggregate value; a selection over a
one-candidate subset returns a member with a valid value. -/
theorem C5_no_aggregate_without_observations_witness :
    memMean memExample "z" = none ∧
    (memRowY ∈ [memRowY] ∧ (metricVal memRowY "AvgTimePerOp(ms)").isSome) :=
  ⟨(C5_no_aggregate_without_observations memExample "z").2.1 (by decide),
   (C5_no_aggregate_without_observations memExample "z").2.2 [memRowY] memRowY (by decide)⟩

/-- Rows of `summary_statistics.csv` holding one well-formed composite
(`ping__int`) and one malformed composite (`onlyonepart`, no delimiter). -/
def malformedExample : List VRow :=
  [{ Category := "Operation", Best_Implementation := "ping__int",
     Metric := some "SELECT", Average_Time_ms := some 5 },
   { Category := "Operation", Best_Implementation := "onlyonepart",
     Metric := some "SELECT", Average_Time_ms := some 7 }]

/-- C6: evaluation at the failing input.  The malformed composite row is
dropped (its missing `DataType` is padded with `None` and removed by
`dropna`) and ingestion of the remaining row continues without error, so the
dropped row reaches no aggregate — but the pipeline's only output is the
cleaned record list: no count of dropped rows is computed or reported
anywhere, although the claim requires the drop to be counted. -/
theorem C6_malformed_dropped_without_count :
    (splitAssign (operationsData malformedExample)).map dropnaOps =
      Except.ok [{ Implementation := "ping", DataType := "int",
                   Metric := "SELECT", time := some 5 }] := by
  rfl

/-- C7 counterexample: for an entirely absent source, ingestion raises
`FileNotFoundError` (it reaches the caller; only `main`'s top-level handler
stops it) instead of yielding an empty record set without exception. -/
theorem C7_counterexample :
    analyze_scalability_run ScalSource.absent = Except.error "FileNotFoundError" ∧
    ∀ o, analyze_scalability_run ScalSource.absent ≠ Except.ok o := by
  refine ⟨rfl, ?_⟩
  intro o h
  exact Except.noConfusion h

/-- The header of a well-formed scalability source. -/
def scalHeader : List String := "Implementation" :: "RowCount" :: metricsList

/-- C7 (amended): a present source with a header but zero data rows hits the
`df.empty` guard: the analysis reports the empty state and returns without
exception, short-circuiting all downstream stages. -/
theorem C7_empty_source_graceful :
    analyze_scalability_run (ScalSource.present { cols := scalHeader, rows := [] }) =
      Except.ok ScalOut.noData := rfl

/-- A row count whose only candidate has no valid `AvgTimePerOp(ms)`. -/
def scalRowNoCand : SRow :=
  [("RowCount", Cell.num 100), ("Implementation", Cell.text "x"),
   ("AvgTimePerOp(ms)", Cell.missing)]

/-- A later row count with a perfectly valid candidate. -/
def scalRowOk : SRow :=
  [("RowCount", Cell.num 200), ("Implementation", Cell.text "y"),
   ("AvgTimePerOp(ms)", Cell.num 5)]

/-- Batch in which the first outer key has no eligible candidate. -/
def noCandExample : List SRow := [scalRowNoCand, scalRowOk]

/-- C8 counterexample: in the scalability summary, the outer key 100 (all
candidates invalid) makes `subset.loc[idxmin]` raise; the batch aborts with
the error, and the outer key 200 — which has a valid candidate — receives no
ranked entry, contradicting the claim that other keys are unaffected. -/
theorem C8_counterexample :
    (scalBestPerRowCount noCandExample).2 = some "KeyError: nan" ∧
    (scalBestPerRowCount noCandExample).1 = [] ∧
    (∃ r ∈ noCandExample, getCell r "RowCount" = Cell.num 200 ∧
      (metricVal r "AvgTimePerOp(ms)").isSome) := by
  decide

/-- C8 (amended): in the main analysis summary — whose loop carries the
`pd.notna(min_idx)` guard — a metric with no valid candidate simply produces
no entry, and every metric that has a valid candidate still gets its ranked
entry; the batch is never aborted (the embedding is a total function). -/
theorem C8_viz_skips_no_candidates (rs : List OpRec) (m : String) :
    ((∀ r ∈ rs, r.Metric = m → r.time = none) → ∀ b, (m, b) ∉ vizBestLines rs) ∧
    (∀ m2, m2 ∈ rs.map OpRec.Metric →
      (∃ r ∈ rs, r.Metric = m2 ∧ (r.time).isSome) →
      ∃ b, (m2, b) ∈ vizBestLines rs) := by
  constructor
  · intro hall b hmem
    unfold vizBestLines at hmem
    rcases List.mem_filterMap.mp hmem with ⟨m2, hm2, hf⟩
    by_cases he : (rs.filter (fun r => r.Metric = m2)).isEmpty
    · rw [if_pos he] at hf
      exact Option.noConfusion hf
    · rw [if_neg he] at hf
      cases hb : bestRowForMetric rs m2 with
      | none =>
        rw [hb] at hf
        exact Option.noConfusion hf
      | some b2 =>
        rw [hb] at hf
        cases hf
        unfold bestRowForMetric at hb
        rcases idxmin_mem_isSome _ _ _ hb with ⟨hmemf, hsome⟩
        rcases List.mem_filter.mp hmemf with ⟨hmemrs, hmet⟩
        have hnone := hall b hmemrs (by simpa using hmet)
        rw [hnone] at hsome
        exact Bool.noConfusion hsome
  · intro m2 hm2 hex
    rcases hex with ⟨r, hr, hrm, hrs⟩
    have hm2s : m2 ∈ uniqueMetricsSorted rs := by
      unfold uniqueMetricsSorted
      rw [mem_sortBy]
      exact List.mem_dedup.mpr hm2
    have hrf : r ∈ rs.filter (fun r => r.Metric = m2) :=
      List.mem_filter.mpr ⟨hr, by simp [hrm]⟩
    have hne : ¬ (rs.filter (fun r => r.Metric = m2)).isEmpty := by
      intro he
      rw [List.isEmpty_iff] at he
      rw [he] at hrf
      exact absurd hrf (List.not_mem_nil r)
    cases hb : bestRowForMetric rs m2 with
    | none =>
      exfalso
      unfold bestRowForMetric at hb
      have := (idxmin_eq_none_iff (fun r => r.time) _).mp hb r hrf
      rw [this] at hrs
      exact Bool.noConfusion hrs
    | some b =>
      refine ⟨b, ?_⟩
      unfold vizBestLines
      apply List.mem_filterMap.mpr
      refine ⟨m2, hm2s, ?_⟩
      rw [if_neg hne, hb]
      rfl

/-- Rows for the C8 amended witness: metric BAD has only an invalid
candidate, metric GOOD a valid one. -/
def vizSkipExample : List OpRec :=
  [{ Implementation := "x", DataType := "d", Metric := "BAD", time := none },
   { Implementation := "y", DataType := "d", Metric := "GOOD", time := some 2 }]

/-- Witness for C8's amended theorem at a concrete input. -/
theorem C8_viz_skips_no_candidates_witness :
    (∀ b, ("BAD", b) ∉ vizBestLines vizSkipExample) ∧
    (∃ b, ("GOOD", b) ∈ vizBestLines vizSkipExample) :=
  ⟨(C8_viz_skips_no_candidates vizSkipExample "BAD").1 (by decide),
   (C8_viz_skips_no_candidates vizSkipExample "GOOD").2 "GOOD" (by decide)
     ⟨{ Implementation := "y", DataType := "d", Metric := "GOOD", time := some 2 },
      by decide⟩⟩

/-- C9: for a nonempty source, if any declared column (dimension or numeric
metric) is absent from the header, `analyze_scalability` fails immediately
with an error surfaced to the caller; when the declared schema is present,
processing completes, no row is lost to the coercion step, and each cell of a
declared metric column is coerced (`NaN` for uncoercible values) while other
cells are untouched — row-level issues stay recoverable. -/
theorem C9_schema_fail_fast (df : SDF) (hne : ¬ df.rows.isEmpty = true) :
    ((∃ c ∈ scalDeclaredCols, ¬ df.cols.contains c = true) →
      ∃ e, analyze_scalability_run (ScalSource.present df) = Except.error e) ∧
    ((∀ c ∈ scalDeclaredCols, df.cols.contains c = true) →
      analyze_scalability_run (ScalSource.present df) =
        Except.ok (ScalOut.done (scalBestPerRowCount (df.rows.map coerceRow))) ∧
      (df.rows.map coerceRow).length = df.rows.length ∧
      (∀ r ∈ df.rows, ∀ c : String, getCell (coerceRow r) c =
        if metricsList.contains c then toNumericCell (getCell r c) else getCell r c)) := by
  constructor
  · rintro ⟨c, hcd, hcm⟩
    cases hfind : metricsList.find? (fun m => !(df.cols.contains m)) with
    | some m =>
      refine ⟨"KeyError: " ++ m, ?_⟩
      simp only [analyze_scalability_run, if_neg hne, coerceMetrics, hfind]
    | none =>
      have hall : ∀ m ∈ metricsList, df.cols.contains m = true := by
        intro m hm
        have h2 := List.find?_eq_none.mp hfind m hm
        simpa using h2
      have hfalse : df.cols.contains c = false := by
        cases hcc : df.cols.contains c with
        | false => rfl
        | true => exact absurd hcc hcm
      have hcdim : ¬ (df.cols.contains "RowCount" && df.cols.contains "Implementation") = true := by
        rcases List.mem_cons.mp hcd with rfl | hcd2
        · rw [hfalse]
          simp
        · rcases List.mem_cons.mp hcd2 with rfl | hcd3
          · rw [hfalse]
            simp
          · exact absurd (hall c hcd3) hcm
      refine ⟨"KeyError: dimension column", ?_⟩
      simp only [analyze_scalability_run, if_neg hne, coerceMetrics, hfind]
      rw [if_neg hcdim]
  · intro hall
    have hfind : metricsList.find? (fun m => !(df.cols.contains m)) = none := by
      apply List.find?_eq_none.mpr
      intro m hm
      have h3 := hall m (List.mem_cons_of_mem _ (List.mem_cons_of_mem _ hm))
      simp at h3 ⊢
      exact h3
    refine ⟨?_, by simp, fun r _ c => getCell_coerceRow r c⟩
    simp only [analyze_scalability_run, if_neg hne, coerceMetrics, hfind]
    rw [if_pos]
    rw [hall "RowCount" (List.mem_cons_self _ _),
      hall "Implementation" (List.mem_cons_of_mem _ (List.mem_cons_self _ _))]
    rfl

/-- A source whose header lacks several declared metric columns. -/
def badSchemaDF : SDF :=
  { cols := ["RowCount", "Implementation", "TotalTime(ms)"],
    rows := [[("RowCount", Cell.num 100), ("Implementation", Cell.text "x")]] }

/-- Witness for C9 at a concrete input with a missing declared column. -/
theorem C9_schema_fail_fast_witness :
    ∃ e, analyze_scalability_run (ScalSource.present badSchemaDF) = Except.error e :=
  (C9_schema_fail_fast badSchemaDF (by decide)).1
    ⟨"AvgTimePerOp(ms)", by decide, by decide⟩

/-- C10: the `Category` split of `analyze_csv` is exact — a row enters
`operations_data` iff it is a row of the input with `Category = Operation`,
and `memory_data` iff `Category = Memory` — and every record consumed by the
downstream operation (resp. memory) analyses originates, through the split
and `dropna` pipeline, from a row with `Category = Operation` (resp.
`Memory`); a row with any other category reaches no summary, table or
ranking. -/
theorem C10_category_partition (df : List VRow) (r : VRow) :
    (r ∈ operationsData df ↔ r ∈ df ∧ r.Category = "Operation") ∧
    (r ∈ memoryData df ↔ r ∈ df ∧ r.Category = "Memory") ∧
    (∀ l rec, splitAssign (operationsData df) = Except.ok l → rec ∈ dropnaOps l →
      ∃ s ∈ df, s.Category = "Operation" ∧ dropnaOne (splitRow s) = some rec) ∧
    (∀ l o, splitAssign (memoryData df) = Except.ok l → o ∈ dropnaMems l →
      ∃ s ∈ df, s.Category = "Memory" ∧ splitRow s = o) := by
  refine ⟨?_, ?_, ?_, ?_⟩
  · unfold operationsData
    rw [List.mem_filter]
    simp
  · unfold memoryData
    rw [List.mem_filter]
    simp
  · intro l rec hs hmem
    unfold splitAssign at hs
    by_cases hw : expandWidth (operationsData df) = 2
    · rw [if_pos hw] at hs
      cases hs
      unfold dropnaOps at hmem
      rcases List.mem_filterMap.mp hmem with ⟨o, ho, hdo⟩
      rcases List.mem_map.mp ho with ⟨s, hsmem, rfl⟩
      rcases List.mem_filter.mp hsmem with ⟨hsdf, hscat⟩
      exact ⟨s, hsdf, by simpa using hscat, hdo⟩
    · rw [if_neg hw] at hs
      exact Except.noConfusion hs
  · intro l o hs hmem
    unfold splitAssign at hs
    by_cases hw : expandWidth (memoryData df) = 2
    · rw [if_pos hw] at hs
      cases hs
      unfold dropnaMems at hmem
      rcases List.mem_filter.mp hmem with ⟨ho, _⟩
      rcases List.mem_map.mp ho with ⟨s, hsmem, rfl⟩
      rcases List.mem_filter.mp hsmem with ⟨hsdf, hscat⟩
      exact ⟨s, hsdf, by simpa using hscat, rfl⟩
    · rw [if_neg hw] at hs
      exact Except.noConfusion hs

/-- Input with one row of each category, including an unrelated one. -/
def categoryExample : List VRow :=
  [{ Category := "Operation", Best_Implementation := "a__b",
     Metric := some "M", Average_Time_ms := some 1 },
   { Category := "Memory", Best_Implementation := "a__b",
     Metric := none, Average_Time_ms := some 2 },
   { Category := "Other", Best_Implementation := "a__b",
     Metric := some "M", Average_Time_ms := some 3 }]

/-- The unrelated-category row of `categoryExample`. -/
def otherRow : VRow :=
  { Category := "Other", Best_Implementation := "a__b",
    Metric := some "M", Average_Time_ms := some 3 }

/-- Witness for C10: the cleaned operations record of `categoryExample`
originates from its unique `Category = Operation` row. -/
theorem C10_category_partition_witness :
    ∃ s ∈ categoryExample, s.Category = "Operation" ∧
      dropnaOne (splitRow s) = some
        { Implementation := "a", DataType := "b", Metric := "M", time := some 1 } :=
  (C10_category_partition categoryExample otherRow).2.2.1
    ((operationsData categoryExample).map splitRow)
    { Implementation := "a", DataType := "b", Metric := "M", time := some 1 }
    (by rfl) (by decide)

end VizSpec
